import Mathlib

/-!
Formal model of `modesolverpy/mode_solver.py`.

The translated source is the orchestration module: the abstract base class
`_ModeSolver` (construction, sweeps, group-index estimation) and its two
subclasses `ModeSolverSemiVectorial` and `ModeSolverFullyVectorial`.  The
low-level eigensolver library `_mode_solver_lib` is external to the translated
file and is kept abstract: each subclass `_solve` invokes it through an
explicit engine function argument which receives exactly the data the source
passes (wavelength, structure, boundary string, method, `n_eigs`, `tol`,
guesses) and returns effective indices and mode fields.

Numpy arrays of complex numbers are modelled as `List ℂ`, real magnitude
arrays as `List ℝ`, and Python `None` as `Option.none`.  The mutable
attributes of a solver object are threaded explicitly through a `SolverState`
record; a method that mutates `self` becomes a function returning the updated
state next to its Python return value.
-/

namespace ModeSolverPy

noncomputable section

/-- Result of the external low-level semi-vectorial solve
(`_mode_solver_lib._ModeSolverSemiVectorial.solve`): the effective indices
`neff` and the list of mode field arrays `modes`. -/
structure MSResult where
  neff : List ℂ
  modes : List (List ℂ)

/-- The external semi-vectorial engine, abstracting
`ms._ModeSolverSemiVectorial(wavelength, structure, boundary, method)`
followed by `.solve(n_eigs, tol, mode_profiles, initial_mode_guess)`.
Arguments in order: wavelength, structure, boundary code, semi-vectorial
method, `n_eigs`, `tol`, `mode_profiles`, initial mode guess. -/
def SemiEngine (S : Type) : Type :=
  ℝ → S → String → String → ℕ → ℝ → Bool → Option (List ℝ) → MSResult

/-- One fully-vectorial mode: the six field-component arrays of
`mode.fields` (keys `Ex`, `Ey`, `Ez`, `Hx`, `Hy`, `Hz`). -/
structure VMode where
  Ex : List ℂ
  Ey : List ℂ
  Ez : List ℂ
  Hx : List ℂ
  Hy : List ℂ
  Hz : List ℂ

/-- Result of the external low-level fully-vectorial solve. -/
structure VMSResult where
  neff : List ℂ
  modes : List VMode

/-- The external fully-vectorial engine, abstracting
`ms._ModeSolverVectorial(wavelength, structure, boundary)` followed by
`.solve(n_eigs, tol, n_eff_guess, initial_mode_guess)`. -/
def VectEngine (S : Type) : Type :=
  ℝ → S → String → ℕ → ℝ → Option ℂ → Option (List ℝ) → VMSResult

/-- Modelled from the spec: the error taxonomy of its section 7
(ill-posed boundary, grid too small, non-convergence, insufficient
eigenpairs, dimension mismatch).  These exceptions would be raised by the
external low-level library; `mode_solver.py` itself neither raises nor
catches any of them.  The type serves as the exception type when a
single-point solve step is modelled as fallible. -/
inductive SolverError where
  | illPosedBoundary
  | gridTooSmall
  | nonConvergence
  | insufficientEigenpairs
  | dimensionMismatch
deriving DecidableEq

/-- The mutable attributes of a `_ModeSolver` object.  In Python `self.modes`
holds a list of scalar field arrays after a semi-vectorial solve and a list of
six-component mode objects after a fully-vectorial solve; the two shapes are
kept in the separate typed fields `modes` and `vmodes`.  The raw low-level
solver object `self._ms` is not recorded beyond the data taken from it. -/
structure SolverState (S : Type) where
  n_eigs : ℕ
  tol : ℝ
  boundary : String
  mode_profiles : Bool
  initial_mode_guess : Option (List ℝ)
  n_eff_guess : Option ℂ
  n_effs : Option (List ℂ)
  modes : Option (List (List ℂ))
  vmodes : Option (List VMode)
  overlaps : Option (List (List ℝ))
  mode_types : Option (List (String × ℝ))
  struct : Option S

/-- `_ModeSolver.__init__`: stores every argument verbatim and sets the result
attributes to `None`.  No argument — in particular the boundary code — is
validated; construction always succeeds. -/
def init (S : Type) (n_eigs : ℕ) (tol : ℝ) (boundary : String)
    (mode_profiles : Bool) (initial_mode_guess : Option (List ℝ))
    (n_eff_guess : Option ℂ) : SolverState S :=
  { n_eigs := n_eigs, tol := tol, boundary := boundary,
    mode_profiles := mode_profiles, initial_mode_guess := initial_mode_guess,
    n_eff_guess := n_eff_guess, n_effs := none, modes := none, vmodes := none,
    overlaps := none, mode_types := none, struct := none }

/-- `np.abs` applied elementwise to a complex field array.  The magnitudes are
real; Python stores the resulting real array back into the complex-element
modes list, modelled by re-embedding each magnitude into `ℂ`. -/
def absField (f : List ℂ) : List ℂ :=
  f.map fun z => ((Complex.abs z : ℝ) : ℂ)

/-- `self._ms.modes[0] = np.abs(self._ms.modes[0])`: in-place replacement of
the fundamental mode field by its elementwise magnitude.  (On an empty modes
list Python would raise IndexError; that case never arises for
`n_eigs ≥ 1`.) -/
def absHeadUpdate : List (List ℂ) → List (List ℂ)
  | [] => []
  | m :: rest => absField m :: rest

/-- The dictionary returned by `ModeSolverSemiVectorial._solve`: key `n_effs`
always present, key `modes` present only when mode profiles are enabled. -/
structure SolveResult where
  n_effs : List ℂ
  modes : Option (List (List ℂ))

/-- `ModeSolverSemiVectorial._solve`: runs the external engine with the stored
attributes, records the effective indices, and, when mode profiles are
enabled, places the modes list into the result, replaces the fundamental entry
by its magnitude in place (`r['modes']` aliases `self._ms.modes`, so the
returned list carries the mutated entry) and keeps `np.abs` of that mutated
entry as the next `initial_mode_guess`. -/
def semiSolve {S : Type} (engine : SemiEngine S) (svm : String)
    (st : SolverState S) (s : S) (wavelength : ℝ) :
    SolverState S × SolveResult :=
  let raw := engine wavelength s st.boundary svm st.n_eigs st.tol
    st.mode_profiles st.initial_mode_guess
  if st.mode_profiles then
    let newModes := absHeadUpdate raw.modes
    ({ st with
        struct := some s
        n_effs := some raw.neff
        modes := some newModes
        initial_mode_guess := some ((newModes.headD []).map Complex.abs) },
     { n_effs := raw.neff, modes := some newModes })
  else
    ({ st with
        struct := some s
        n_effs := some raw.neff
        modes := some raw.modes },
     { n_effs := raw.neff, modes := none })

/-- Sum of `np.abs(field)**2` over the grid: the energy of one field
component. -/
def fieldEnergy (f : List ℂ) : ℝ :=
  (f.map fun z => Complex.abs z ^ 2).sum

/-- `ModeSolverFullyVectorial._get_overlaps` applied to one mode: the three
E-component energies each divided by their sum and scaled to 100, followed by
the three H-component energies treated likewise.  The divisions carry no zero
guard, exactly as in the source. -/
def overlapVec (m : VMode) : List ℝ :=
  let areas_e := [fieldEnergy m.Ex, fieldEnergy m.Ey, fieldEnergy m.Ez]
  let areas_h := [fieldEnergy m.Hx, fieldEnergy m.Hy, fieldEnergy m.Hz]
  (areas_e.map fun a => a / areas_e.sum * 100)
    ++ (areas_h.map fun a => a / areas_h.sum * 100)

/-- `ModeSolverFullyVectorial._get_overlaps` over the solved modes list. -/
def get_overlaps (modes : List VMode) : List (List ℝ) :=
  modes.map overlapVec

/-- Accumulator loop of `np.argmax`: index of the first strictly greatest
element seen so far. -/
def argmaxAux : List ℝ → ℕ → ℕ → ℝ → ℕ
  | [], _, best, _ => best
  | x :: xs, i, best, bestVal =>
    if bestVal < x then argmaxAux xs (i + 1) i x
    else argmaxAux xs (i + 1) best bestVal

/-- `np.argmax`: index of the first occurrence of the maximum value. -/
def argmax : List ℝ → ℕ
  | [] => 0
  | x :: xs => argmaxAux xs 1 0 x

/-- The label dictionary of `_get_mode_types`; only the keys 0, 1 and 2 are
ever looked up, since the index comes from `np.argmax` over a three-element
slice. -/
def labels : ℕ → String
  | 0 => "qTE"
  | 1 => "qTM"
  | _ => "qTE/qTM"

/-- Rounding to the nearest integer with ties to even, the rounding mode
implemented by `np.round`. -/
def roundHalfEven (x : ℝ) : ℤ :=
  if Int.fract x = 1 / 2 then (if Even ⌊x⌋ then ⌊x⌋ else ⌊x⌋ + 1)
  else round x

/-- `np.round(x, 2)`: round to two decimal places. -/
def np_round2 (x : ℝ) : ℝ :=
  (roundHalfEven (x * 100) : ℝ) / 100

/-- `ModeSolverFullyVectorial._get_mode_types`: for each overlap vector, the
label of the index of the largest of the first three entries, paired with that
entry rounded to two decimals. -/
def get_mode_types (overlaps : List (List ℝ)) : List (String × ℝ) :=
  overlaps.map fun overlap =>
    (labels (argmax (overlap.take 3)),
     np_round2 (overlap.getD (argmax (overlap.take 3)) 0))

/-- The dictionary returned by `ModeSolverFullyVectorial._solve`: `n_effs` and
`modes` (always both present). -/
structure VSolveResult where
  n_effs : List ℂ
  modes : List VMode

/-- `ModeSolverFullyVectorial._solve`: runs the external engine with the
stored `n_eff_guess` and `initial_mode_guess`, records indices, modes,
overlaps and mode types, and finally resets `initial_mode_guess` to `None`;
`n_eff_guess` is never written. -/
def vectSolve {S : Type} (engine : VectEngine S) (st : SolverState S) (s : S)
    (wavelength : ℝ) : SolverState S × VSolveResult :=
  let raw := engine wavelength s st.boundary st.n_eigs st.tol
    st.n_eff_guess st.initial_mode_guess
  ({ st with
      struct := some s
      n_effs := some raw.neff
      vmodes := some raw.modes
      overlaps := some (get_overlaps raw.modes)
      mode_types := some (get_mode_types (get_overlaps raw.modes))
      initial_mode_guess := none },
   { n_effs := raw.neff, modes := raw.modes })

/-- `_ModeSolver.solve_ng`: three single-point solves through the abstract
`self.solve` (whose return value is discarded; the attribute `self.n_effs` is
read after each call), then the central-difference group-index formula mapped
over the zipped index lists.  Python's three-argument `zip` is modelled by
nested pairing and truncates to the shortest list exactly as the source
does. -/
def solve_ng {S R : Type} (solve : SolverState S → S → ℝ → SolverState S × R)
    (st : SolverState S) (structure_ctr structure_bck structure_frw : S)
    (wavelength : ℝ) (wavelength_step : ℝ) : SolverState S × List ℂ :=
  let st1 := (solve st structure_ctr wavelength).1
  let n_ctrs := st1.n_effs.getD []
  let st2 := (solve st1 structure_bck (wavelength - wavelength_step)).1
  let n_bcks := st2.n_effs.getD []
  let st3 := (solve st2 structure_frw (wavelength + wavelength_step)).1
  let n_frws := st3.n_effs.getD []
  (st3,
   (n_ctrs.zip (n_bcks.zip n_frws)).map fun p =>
     p.1 - (wavelength : ℂ) * (p.2.2 - p.2.1) / (2 * (wavelength_step : ℂ)))

/-- `_ModeSolver.solve_sweep_structure`: one single-point solve per structure,
in order, accumulating the per-step results.  A step is modelled as fallible
(`Except`), since the external library may raise; a raised exception
propagates out of the Python loop, so the locally accumulated list is
abandoned and only the error escapes.  The file write and the plot that
follow the loop are external collaborators and are not modelled; the `tqdm`
wrapper only reports progress and preserves iteration order. -/
def solve_sweep_structure {St S R E : Type}
    (solve : St → S → ℝ → Except E (St × R)) (st : St) (structures : List S)
    (wavelength : ℝ) : Except E (St × List R) :=
  match structures with
  | [] => Except.ok (st, [])
  | s :: rest =>
    match solve st s wavelength with
    | Except.error e => Except.error e
    | Except.ok p =>
      match solve_sweep_structure solve p.1 rest wavelength with
      | Except.error e => Except.error e
      | Except.ok q => Except.ok (q.1, p.2 :: q.2)

/-- `_ModeSolver.solve_sweep_wavelength`: like the structure sweep, iterating
over wavelengths at a fixed structure. -/
def solve_sweep_wavelength {St S R E : Type}
    (solve : St → S → ℝ → Except E (St × R)) (st : St) (s : S)
    (wavelengths : List ℝ) : Except E (St × List R) :=
  match wavelengths with
  | [] => Except.ok (st, [])
  | w :: rest =>
    match solve st s w with
    | Except.error e => Except.error e
    | Except.ok p =>
      match solve_sweep_wavelength solve p.1 s rest with
      | Except.error e => Except.error e
      | Except.ok q => Except.ok (q.1, p.2 :: q.2)

/-- The semi-vectorial single-point solve as an infallible sweep step. -/
def semiStepE {S E : Type} (engine : SemiEngine S) (svm : String) :
    SolverState S → S → ℝ → Except E (SolverState S × SolveResult) :=
  fun st s w => Except.ok (semiSolve engine svm st s w)

/-- The fully-vectorial single-point solve as an infallible sweep step. -/
def vectStepE {S E : Type} (engine : VectEngine S) :
    SolverState S → S → ℝ → Except E (SolverState S × VSolveResult) :=
  fun st s w => Except.ok (vectSolve engine st s w)

/-- Fixture: a constant semi-vectorial engine returning one mode whose single
field sample is `I`. -/
def engI : SemiEngine Unit :=
  fun _ _ _ _ _ _ _ _ => { neff := [2], modes := [[Complex.I]] }

/-- Fixture: the state of `ModeSolverSemiVectorial(1)` right after
construction (mode profiles enabled by default). -/
def st0 : SolverState Unit := init Unit 1 0 "0000" true none none

/-- Fixture: a mode with all six field arrays `[1]`. -/
def mOnes : VMode :=
  { Ex := [1], Ey := [1], Ez := [1], Hx := [1], Hy := [1], Hz := [1] }

/-- Fixture: a constant fully-vectorial engine returning one mode with all six
field arrays `[1]`. -/
def engV1 : VectEngine Unit :=
  fun _ _ _ _ _ _ _ => { neff := [2], modes := [mOnes] }

/-- Fixture: a mode with component energies 4, 1, 0 (E) and 1, 0, 0 (H). -/
def m8 : VMode :=
  { Ex := [2], Ey := [1], Ez := [0], Hx := [1], Hy := [0], Hz := [0] }

/-- Fixture: a constant fully-vectorial engine returning the single mode
`m8`. -/
def engV8 : VectEngine Unit :=
  fun _ _ _ _ _ _ _ => { neff := [2], modes := [m8] }

/-- Fixture: the state of `ModeSolverFullyVectorial(1)` with an explicit
`n_eff_guess`. -/
def stV : SolverState Unit := init Unit 1 0 "0000" false none (some 2)

/-- Fixture: a mode whose E components are identically zero. -/
def mZero : VMode :=
  { Ex := [0], Ey := [0], Ez := [0], Hx := [1], Hy := [1], Hz := [1] }

/-- Fixture sweep step: succeeds on structure 0 with result 10, fails on any
other structure with a non-convergence error. -/
def stepFail : Unit → ℕ → ℝ → Except SolverError (Unit × ℕ) :=
  fun _ s _ =>
    if s = 0 then Except.ok ((), 10)
    else Except.error SolverError.nonConvergence

/-- Fixture sweep step like `stepFail` but with result 20 on structure 0: used
to show the aborted sweep output does not retain the completed results. -/
def stepFail2 : Unit → ℕ → ℝ → Except SolverError (Unit × ℕ) :=
  fun _ s _ =>
    if s = 0 then Except.ok ((), 20)
    else Except.error SolverError.nonConvergence

/-- Fixture solve step for the group-index formula: records the wavelength it
was called at as the single effective index. -/
def stepNg : SolverState Unit → Unit → ℝ → SolverState Unit × ℕ :=
  fun st _ w => ({ st with n_effs := some [(w : ℂ)] }, 0)

/-- Taking `np.abs` of an already magnitude-valued field array gives the same
real values: the magnitudes are non-negative reals. -/
theorem absField_map_abs (m : List ℂ) :
    (absField m).map Complex.abs = m.map Complex.abs := by
  simp only [absField, List.map_map]
  refine List.map_congr_left ?_
  intro z _
  simp only [Function.comp_apply, Complex.abs_ofReal]
  exact abs_of_nonneg (Complex.abs.nonneg z)

/-- The magnitude of the (in place) magnitude-updated fundamental mode equals
the magnitude of the original fundamental mode. -/
theorem headD_absHeadUpdate (modes : List (List ℂ)) :
    ((absHeadUpdate modes).headD []).map Complex.abs
      = (modes.headD []).map Complex.abs := by
  cases modes with
  | nil => rfl
  | cons m rest => simpa [absHeadUpdate] using absField_map_abs m

/-- After a semi-vectorial solve with mode profiles enabled, the stored
initial mode guess is the elementwise magnitude of the engine's fundamental
mode. -/
theorem semiSolve_guess {S : Type} (engine : SemiEngine S) (svm : String)
    (st : SolverState S) (s : S) (w : ℝ) (hmp : st.mode_profiles = true) :
    (semiSolve engine svm st s w).1.initial_mode_guess
      = some (((engine w s st.boundary svm st.n_eigs st.tol st.mode_profiles
          st.initial_mode_guess).modes.headD []).map Complex.abs) := by
  simp only [semiSolve, hmp, if_true]
  exact congrArg some (headD_absHeadUpdate _)

/-- A semi-vectorial solve does not change the configuration attributes. -/
theorem semiSolve_config {S : Type} (engine : SemiEngine S) (svm : String)
    (st : SolverState S) (s : S) (w : ℝ) :
    (semiSolve engine svm st s w).1.boundary = st.boundary
    ∧ (semiSolve engine svm st s w).1.n_eigs = st.n_eigs
    ∧ (semiSolve engine svm st s w).1.tol = st.tol
    ∧ (semiSolve engine svm st s w).1.mode_profiles = st.mode_profiles := by
  by_cases h : st.mode_profiles <;> simp [semiSolve, h]

/-- Elementwise description of the group-index map over the zipped triple of
index lists. -/
theorem getD_map_zip3 (as bs cs : List ℂ) (f : ℂ → ℂ → ℂ → ℂ) (i : ℕ)
    (ha : i < as.length) (hb : i < bs.length) (hc : i < cs.length) :
    ((as.zip (bs.zip cs)).map fun p => f p.1 p.2.1 p.2.2).getD i 0
      = f (as.getD i 0) (bs.getD i 0) (cs.getD i 0) := by
  induction as generalizing bs cs i with
  | nil => simp at ha
  | cons a as ih =>
    cases bs with
    | nil => simp at hb
    | cons b bs =>
      cases cs with
      | nil => simp at hc
      | cons c cs =>
        cases i with
        | zero => simp
        | succ n =>
          simp only [List.zip_cons_cons, List.map_cons, List.getD_cons_succ]
          exact ih bs cs n (by simpa using ha) (by simpa using hb)
            (by simpa using hc)

/-- C1: `solve_ng(structure_ctr, structure_bck, structure_frw, wavelength,
wavelength_step)` returns the sequence whose `i`-th entry is
`n_eff_center[i] - wavelength * (n_eff_forward[i] - n_eff_backward[i]) /
(2 * wavelength_step)`, where the three effective-index sequences come from
the single-point solves at `wavelength`, `wavelength - step` and
`wavelength + step`; the sequence is as long as the shortest of the three,
and its entries are real whenever the three effective indices are real. -/
theorem c1_group_index_formula {S R : Type}
    (solve : SolverState S → S → ℝ → SolverState S × R)
    (st : SolverState S) (sc sb sf : S) (lam dlt : ℝ) (i : ℕ)
    (nctr nbck nfrw : List ℂ)
    (hc : nctr = ((solve st sc lam).1).n_effs.getD [])
    (hb : nbck = ((solve (solve st sc lam).1 sb (lam - dlt)).1).n_effs.getD [])
    (hf : nfrw = ((solve (solve (solve st sc lam).1 sb (lam - dlt)).1 sf
        (lam + dlt)).1).n_effs.getD [])
    (h1 : i < nctr.length) (h2 : i < nbck.length) (h3 : i < nfrw.length) :
    (solve_ng solve st sc sb sf lam dlt).2.length
        = min nctr.length (min nbck.length nfrw.length)
    ∧ (solve_ng solve st sc sb sf lam dlt).2.getD i 0
        = nctr.getD i 0
          - (lam : ℂ) * (nfrw.getD i 0 - nbck.getD i 0) / (2 * (dlt : ℂ))
    ∧ ((nctr.getD i 0).im = 0 → (nbck.getD i 0).im = 0 →
        (nfrw.getD i 0).im = 0 →
        ((solve_ng solve st sc sb sf lam dlt).2.getD i 0).im = 0) := by
  have key : (solve_ng solve st sc sb sf lam dlt).2
      = (nctr.zip (nbck.zip nfrw)).map fun p =>
          p.1 - (lam : ℂ) * (p.2.2 - p.2.1) / (2 * (dlt : ℂ)) := by
    rw [hc, hb, hf]; rfl
  have hentry : (solve_ng solve st sc sb sf lam dlt).2.getD i 0
      = nctr.getD i 0
        - (lam : ℂ) * (nfrw.getD i 0 - nbck.getD i 0) / (2 * (dlt : ℂ)) := by
    rw [key]
    exact getD_map_zip3 nctr nbck nfrw
      (fun a b c => a - (lam : ℂ) * (c - b) / (2 * (dlt : ℂ))) i h1 h2 h3
  refine ⟨?_, hentry, ?_⟩
  · rw [key]; simp
  · intro hic hib hif
    rw [hentry]
    set a := nctr.getD i 0
    set b := nbck.getD i 0
    set f := nfrw.getD i 0
    simp [Complex.sub_im, Complex.div_im, Complex.mul_im, Complex.mul_re,
      Complex.sub_re, Complex.ofReal_im, Complex.ofReal_re, hic, hib, hif]

/-- C1 witness: a concrete run of `solve_ng` with a step recording the
wavelength as the effective index; at center wavelength 2 and step 1 the
group index is 2 - 2 * (3 - 1) / (2 * 1). -/
theorem c1_witness :
    0 < ((stepNg st0 () 2).1.n_effs.getD []).length
    ∧ (solve_ng stepNg st0 () () () 2 1).2.getD 0 0
        = (2 : ℂ) - (2 : ℂ) * ((3 : ℂ) - (1 : ℂ)) / (2 * (1 : ℂ)) := by
  constructor
  · simp [stepNg]
  · have h := c1_group_index_formula stepNg st0 () () () 2 1 0 _ _ _ rfl rfl
      rfl (by simp [stepNg]) (by simp [stepNg]) (by simp [stepNg])
    rw [h.2.1]
    simp [stepNg]
    norm_num

/-- C9 counterexample: constructing a solver with the 5-character boundary
code `"00000"` succeeds and stores the code verbatim.  `_ModeSolver.__init__`
is a total function in the model because the source constructor contains no
validation and no raise path: no `IllPosedBoundaryError` is (or can be)
raised at construction, refuting the claim that the exactly-4-symbols
invariant is validated there. -/
theorem c9_cex :
    (init Unit 1 0 "00000" true none none).boundary = "00000"
    ∧ "00000".length ≠ 4 := by
  exact ⟨rfl, by decide⟩

/-- C9 amended: construction performs no boundary validation — any boundary
string is stored verbatim and construction always succeeds — and a solve
forwards the stored code unchanged to the external low-level solver, the only
place a boundary check could occur. -/
theorem c9_no_boundary_validation {S : Type} (engine : SemiEngine S)
    (svm : String) (n_eigs : ℕ) (tol : ℝ) (boundary : String) (mp : Bool)
    (img : Option (List ℝ)) (neg : Option ℂ) (s : S) (w : ℝ) :
    (init S n_eigs tol boundary mp img neg).boundary = boundary
    ∧ (semiSolve engine svm (init S n_eigs tol boundary mp img neg) s w).2.n_effs
        = (engine w s boundary svm n_eigs tol mp img).neff := by
  constructor
  · rfl
  · by_cases h : mp <;> simp [semiSolve, init, h]

/-- C4: after a semi-vectorial solve with mode profiles enabled the solver's
`initial_mode_guess` equals the elementwise magnitude of the fundamental
(first) mode's field, and in a structure sweep the remaining elements are
solved starting from exactly that post-solve state, so the next element's
solve consumes that magnitude as its initial mode guess. -/
theorem c4_semi_guess {S : Type} (engine : SemiEngine S) (svm : String)
    (st : SolverState S) (s : S) (w : ℝ) (raw : MSResult)
    (hmp : st.mode_profiles = true)
    (hraw : raw = engine w s st.boundary svm st.n_eigs st.tol st.mode_profiles
        st.initial_mode_guess)
    (hne : raw.modes ≠ []) :
    (semiSolve engine svm st s w).1.initial_mode_guess
      = some ((raw.modes.headD []).map Complex.abs)
    ∧ ∀ s2 rest,
        solve_sweep_structure (semiStepE (E := SolverError) engine svm) st
            (s :: s2 :: rest) w
          = Except.map (fun p => (p.1, (semiSolve engine svm st s w).2 :: p.2))
              (solve_sweep_structure (semiStepE (E := SolverError) engine svm)
                (semiSolve engine svm st s w).1 (s2 :: rest) w) := by
  constructor
  · rw [hraw]
    exact semiSolve_guess engine svm st s w hmp
  · intro s2 rest
    cases h2 : solve_sweep_structure (semiStepE (E := SolverError) engine svm)
        (semiSolve engine svm st s w).1 (s2 :: rest) w with
    | error e =>
      rw [solve_sweep_structure]
      simp only [semiStepE]
      rw [h2]
      simp [Except.map]
    | ok p =>
      obtain ⟨st2, rs⟩ := p
      rw [solve_sweep_structure]
      simp only [semiStepE]
      rw [h2]
      simp [Except.map]

/-- C4 witness: with a constant engine returning the single mode `[I]`, the
post-solve guess is the magnitude array `[1]`. -/
theorem c4_witness :
    st0.mode_profiles = true
    ∧ (engI 2 () "0000" "Ex" 1 0 true none).modes ≠ []
    ∧ (semiSolve engI "Ex" st0 () 2).1.initial_mode_guess = some [1] := by
  refine ⟨rfl, by simp [engI], ?_⟩
  have h := (c4_semi_guess engI "Ex" st0 () 2
    (engI 2 () "0000" "Ex" 1 0 true none) rfl rfl (by simp [engI])).1
  rw [h]
  simp [engI, Complex.abs_I]

/-- C2 counterexample: for the semi-vectorial solver (mode profiles enabled,
as by default) the three solves of `solve_ng` are chained, not independent.
`solve_ng` passes the state produced by the center solve to the backward
solve; starting from a fresh solver (guess `none`), that state carries
`initial_mode_guess = [1]`, the elementwise magnitude of the center solve's
fundamental mode `[I]` — the backward solve's guess is derived from the
center solve's result.  The final conjunct runs `solve_ng` itself and shows
the chained guess also survives in its final state. -/
theorem c2_cex :
    st0.initial_mode_guess = none
    ∧ (engI 2 () "0000" "Ex" 1 0 true none).modes = [[Complex.I]]
    ∧ (semiSolve engI "Ex" st0 () 2).1.initial_mode_guess
        = some ([Complex.I].map Complex.abs)
    ∧ (semiSolve engI "Ex" st0 () 2).1.initial_mode_guess ≠ none
    ∧ (solve_ng (semiSolve engI "Ex") st0 () () () 2 1).1.initial_mode_guess
        = some [1] := by
  have hg : ∀ (st : SolverState Unit) (s : Unit) (w : ℝ),
      st.mode_profiles = true →
      (semiSolve engI "Ex" st s w).1.initial_mode_guess = some [1] := by
    intro st s w hmp
    rw [semiSolve_guess engI "Ex" st s w hmp]
    simp [engI, Complex.abs_I]
  have hmp1 : (semiSolve engI "Ex" st0 () 2).1.mode_profiles = true :=
    (semiSolve_config engI "Ex" st0 () 2).2.2.2
  have hmp2 : (semiSolve engI "Ex" ((semiSolve engI "Ex" st0 () 2).1) ()
      (2 - 1)).1.mode_profiles = true :=
    ((semiSolve_config engI "Ex" _ () (2 - 1)).2.2.2).trans hmp1
  refine ⟨rfl, rfl, ?_, ?_, ?_⟩
  · rw [semiSolve_guess engI "Ex" st0 () 2 rfl]
    simp [engI]
  · rw [hg st0 () 2 rfl]
    simp
  · show (semiSolve engI "Ex" ((semiSolve engI "Ex" ((semiSolve engI "Ex" st0
        () 2).1) () (2 - 1)).1) () (2 + 1)).1.initial_mode_guess = some [1]
    exact hg _ () (2 + 1) hmp2

/-- C2 amended: the independence holds only for the fully-vectorial solver,
whose solve resets the field guess to `none`, so the backward and forward
solves of `solve_ng` (and its final state) carry no field-based guess.  For
the semi-vectorial solver with mode profiles enabled a warm-start chain
exists: the state `solve_ng` hands to the backward solve carries the
magnitude of the center solve's fundamental mode as its guess, and the state
handed to the forward solve carries the magnitude of the backward solve's
fundamental mode. -/
theorem c2_solve_chain {S : Type} (enginev : VectEngine S)
    (engines : SemiEngine S) (svm : String) (stv st st1 : SolverState S)
    (sc sb sf : S) (lam dlt : ℝ)
    (hmp : st.mode_profiles = true)
    (hst1 : st1 = (semiSolve engines svm st sc lam).1) :
    (vectSolve enginev stv sc lam).1.initial_mode_guess = none
    ∧ (vectSolve enginev (vectSolve enginev stv sc lam).1 sb
        (lam - dlt)).1.initial_mode_guess = none
    ∧ (solve_ng (vectSolve enginev) stv sc sb sf lam
        dlt).1.initial_mode_guess = none
    ∧ (semiSolve engines svm st sc lam).1.initial_mode_guess
        = some (((engines lam sc st.boundary svm st.n_eigs st.tol
            st.mode_profiles st.initial_mode_guess).modes.headD
              []).map Complex.abs)
    ∧ (semiSolve engines svm st1 sb (lam - dlt)).1.initial_mode_guess
        = some (((engines (lam - dlt) sb st1.boundary svm st1.n_eigs st1.tol
            st1.mode_profiles st1.initial_mode_guess).modes.headD
              []).map Complex.abs) := by
  have hmp1 : st1.mode_profiles = true := by
    rw [hst1, (semiSolve_config engines svm st sc lam).2.2.2]
    exact hmp
  exact ⟨rfl, rfl, rfl, semiSolve_guess engines svm st sc lam hmp,
    semiSolve_guess engines svm st1 sb (lam - dlt) hmp1⟩

/-- C2 witness: the amended statement instantiated with the constant
fixture engines. -/
theorem c2_witness :
    st0.mode_profiles = true
    ∧ (vectSolve engV1 stV () 2).1.initial_mode_guess = none
    ∧ (semiSolve engI "Ex" st0 () 2).1.initial_mode_guess
        = some (((engI 2 () st0.boundary "Ex" st0.n_eigs st0.tol
            st0.mode_profiles st0.initial_mode_guess).modes.headD
              []).map Complex.abs) := by
  have h := c2_solve_chain engV1 engI "Ex" stV st0
    ((semiSolve engI "Ex" st0 () 2).1) () () () 2 1 rfl rfl
  exact ⟨rfl, h.1, h.2.2.2.1⟩

/-- If a prefix of a structure sweep succeeds and the next step fails, the
whole sweep evaluates to just that failure, whatever the remaining steps are:
the accumulated prefix results do not appear in the output. -/
theorem sweep_structure_abort {St S R E : Type}
    (solve : St → S → ℝ → Except E (St × R)) (st : St) (pre : List S) (s : S)
    (post : List S) (w : ℝ) (st1 : St) (rs : List R) (e : E)
    (hpre : solve_sweep_structure solve st pre w = Except.ok (st1, rs))
    (herr : solve st1 s w = Except.error e) :
    solve_sweep_structure solve st (pre ++ s :: post) w = Except.error e := by
  induction pre generalizing st rs with
  | nil =>
    rw [solve_sweep_structure] at hpre
    simp only [Except.ok.injEq, Prod.mk.injEq] at hpre
    obtain ⟨h1, _⟩ := hpre
    subst h1
    rw [List.nil_append, solve_sweep_structure, herr]
  | cons p pre ih =>
    cases hA : solve st p w with
    | error eA =>
      rw [solve_sweep_structure, hA] at hpre
      simp at hpre
    | ok prA =>
      obtain ⟨stA, rA⟩ := prA
      rw [solve_sweep_structure, hA] at hpre
      simp at hpre
      cases hB : solve_sweep_structure solve stA pre w with
      | error eB =>
        rw [hB] at hpre
        simp at hpre
      | ok prB =>
        obtain ⟨stB, rsB⟩ := prB
        rw [hB] at hpre
        simp at hpre
        obtain ⟨hst, _⟩ := hpre
        subst hst
        rw [List.cons_append, solve_sweep_structure, hA]
        have hrec := ih stA rsB hB
        simp [hrec]

/-- If a prefix of a wavelength sweep succeeds and the next step fails, the
whole sweep evaluates to just that failure, whatever the remaining steps
are. -/
theorem sweep_wavelength_abort {St S R E : Type}
    (solve : St → S → ℝ → Except E (St × R)) (st : St) (s : S)
    (pre : List ℝ) (wf : ℝ) (post : List ℝ) (st1 : St) (rs : List R) (e : E)
    (hpre : solve_sweep_wavelength solve st s pre = Except.ok (st1, rs))
    (herr : solve st1 s wf = Except.error e) :
    solve_sweep_wavelength solve st s (pre ++ wf :: post)
      = Except.error e := by
  induction pre generalizing st rs with
  | nil =>
    rw [solve_sweep_wavelength] at hpre
    simp only [Except.ok.injEq, Prod.mk.injEq] at hpre
    obtain ⟨h1, _⟩ := hpre
    subst h1
    rw [List.nil_append, solve_sweep_wavelength, herr]
  | cons p pre ih =>
    cases hA : solve st s p with
    | error eA =>
      rw [solve_sweep_wavelength, hA] at hpre
      simp at hpre
    | ok prA =>
      obtain ⟨stA, rA⟩ := prA
      rw [solve_sweep_wavelength, hA] at hpre
      simp at hpre
      cases hB : solve_sweep_wavelength solve stA s pre with
      | error eB =>
        rw [hB] at hpre
        simp at hpre
      | ok prB =>
        obtain ⟨stB, rsB⟩ := prB
        rw [hB] at hpre
        simp at hpre
        obtain ⟨hst, _⟩ := hpre
        subst hst
        rw [List.cons_append, solve_sweep_wavelength, hA]
        have hrec := ih stA rsB hB
        simp [hrec]

/-- C3 amended: in both sweeps, a failing step aborts the sweep — later steps
are never solved (the result is the same for every continuation `post`) —
but the failure alone is propagated: the completed results of the earlier
steps are discarded, not returned alongside the failure. -/
theorem c3_sweep_abort :
    (∀ {St S R E : Type} (solve : St → S → ℝ → Except E (St × R)) (st : St)
        (pre : List S) (s : S) (post : List S) (w : ℝ) (st1 : St)
        (rs : List R) (e : E),
        solve_sweep_structure solve st pre w = Except.ok (st1, rs) →
        solve st1 s w = Except.error e →
        solve_sweep_structure solve st (pre ++ s :: post) w = Except.error e)
    ∧ (∀ {St S R E : Type} (solve : St → S → ℝ → Except E (St × R)) (st : St)
        (s : S) (pre : List ℝ) (wf : ℝ) (post : List ℝ) (st1 : St)
        (rs : List R) (e : E),
        solve_sweep_wavelength solve st s pre = Except.ok (st1, rs) →
        solve st1 s wf = Except.error e →
        solve_sweep_wavelength solve st s (pre ++ wf :: post)
          = Except.error e) :=
  ⟨fun solve st pre s post w st1 rs e hpre herr =>
      sweep_structure_abort solve st pre s post w st1 rs e hpre herr,
   fun solve st s pre wf post st1 rs e hpre herr =>
      sweep_wavelength_abort solve st s pre wf post st1 rs e hpre herr⟩

/-- C3 counterexample: two sweeps whose step 0 completes with different
results (10 and 20) and whose step 1 raises.  Both return the bare
non-convergence error — the identical output for different completed prior
results shows the sweep does not return the results of steps `0..k-1`
together with the failure; they are discarded. -/
theorem c3_cex :
    stepFail () 0 2 = Except.ok ((), 10)
    ∧ stepFail2 () 0 2 = Except.ok ((), 20)
    ∧ stepFail () 1 2 = Except.error SolverError.nonConvergence
    ∧ solve_sweep_structure stepFail () [0, 1] 2
        = Except.error SolverError.nonConvergence
    ∧ solve_sweep_structure stepFail2 () [0, 1] 2
        = Except.error SolverError.nonConvergence
    ∧ solve_sweep_structure stepFail () [0, 1] 2
        = solve_sweep_structure stepFail2 () [0, 1] 2
    ∧ (10 : ℕ) ≠ 20 := by
  refine ⟨rfl, rfl, rfl, rfl, rfl, rfl, by decide⟩

/-- C3 witness: the amended abort property applied to the concrete failing
sweep: prefix `[0]` succeeds, structure 1 fails, so the sweep over
`[0, 1, 7]` returns the error without touching structure 7. -/
theorem c3_witness :
    solve_sweep_structure stepFail () [0] 2 = Except.ok ((), [10])
    ∧ stepFail () 1 2 = Except.error SolverError.nonConvergence
    ∧ solve_sweep_structure stepFail () [0, 1, 7] 2
        = Except.error SolverError.nonConvergence := by
  refine ⟨rfl, rfl, ?_⟩
  exact c3_sweep_abort.1 stepFail () [0] 1 [7] 2 () [10]
    SolverError.nonConvergence rfl rfl

/-- A fully-vectorial solve leaves `n_eff_guess` untouched. -/
theorem vectSolve_n_eff_guess {S : Type} (engine : VectEngine S)
    (st : SolverState S) (s : S) (w : ℝ) :
    (vectSolve engine st s w).1.n_eff_guess = st.n_eff_guess := rfl

/-- A fully-vectorial solve resets `initial_mode_guess` to `none`. -/
theorem vectSolve_guess_none {S : Type} (engine : VectEngine S)
    (st : SolverState S) (s : S) (w : ℝ) :
    (vectSolve engine st s w).1.initial_mode_guess = none := rfl

/-- Across a fully-vectorial wavelength sweep the caller-supplied
`n_eff_guess` survives unchanged, and after at least one step the field-based
guess is `none`. -/
theorem vect_sweep_guess {S E : Type} (engine : VectEngine S) (s : S)
    (ws : List ℝ) :
    ∀ (st st2 : SolverState S) (rs : List VSolveResult),
      solve_sweep_wavelength (vectStepE (E := E) engine) st s ws
        = Except.ok (st2, rs) →
      st2.n_eff_guess = st.n_eff_guess
      ∧ (ws ≠ [] → st2.initial_mode_guess = none) := by
  induction ws with
  | nil =>
    intro st st2 rs h
    rw [solve_sweep_wavelength] at h
    simp only [Except.ok.injEq, Prod.mk.injEq] at h
    obtain ⟨h1, _⟩ := h
    exact ⟨by rw [← h1], fun hne => absurd rfl hne⟩
  | cons w rest ih =>
    intro st st2 rs h
    rw [solve_sweep_wavelength] at h
    simp only [vectStepE] at h
    cases hB : solve_sweep_wavelength (vectStepE (E := E) engine)
        (vectSolve engine st s w).1 s rest with
    | error eB =>
      rw [hB] at h
      simp at h
    | ok prB =>
      obtain ⟨stB, rsB⟩ := prB
      rw [hB] at h
      simp at h
      obtain ⟨h1, _⟩ := h
      subst h1
      have hih := ih (vectSolve engine st s w).1 stB rsB hB
      cases rest with
      | nil =>
        rw [solve_sweep_wavelength] at hB
        simp only [Except.ok.injEq, Prod.mk.injEq] at hB
        obtain ⟨hb1, _⟩ := hB
        refine ⟨?_, fun _ => ?_⟩
        · rw [← hb1, vectSolve_n_eff_guess]
        · rw [← hb1, vectSolve_guess_none]
      | cons w2 rest2 =>
        refine ⟨?_, fun _ => ?_⟩
        · rw [hih.1, vectSolve_n_eff_guess]
        · exact hih.2 (by simp)

/-- C5: a fully-vectorial solve resets the field-based `initial_mode_guess`
to `none` while leaving the caller-supplied `n_eff_guess` unchanged, and in a
fully-vectorial wavelength sweep the `n_eff_guess` persists to the final
state while the field-based guess is `none` after every step. -/
theorem c5_vect_guess_reset {S : Type} (engine : VectEngine S) :
    (∀ (st : SolverState S) (s : S) (w : ℝ),
        (vectSolve engine st s w).1.initial_mode_guess = none
        ∧ (vectSolve engine st s w).1.n_eff_guess = st.n_eff_guess)
    ∧ (∀ (st : SolverState S) (s : S) (ws : List ℝ) (st2 : SolverState S)
        (rs : List VSolveResult),
        solve_sweep_wavelength (vectStepE (E := SolverError) engine) st s ws
          = Except.ok (st2, rs) →
        st2.n_eff_guess = st.n_eff_guess
        ∧ (ws ≠ [] → st2.initial_mode_guess = none)) := by
  refine ⟨fun st s w => ⟨rfl, rfl⟩, ?_⟩
  intro st s ws st2 rs h
  exact vect_sweep_guess engine s ws st st2 rs h

/-- C5 witness: a one-step fully-vectorial sweep from a state with
`n_eff_guess = some 2` ends with the same `n_eff_guess` and no field
guess. -/
theorem c5_witness :
    solve_sweep_wavelength (vectStepE (E := SolverError) engV1) stV () [2]
      = Except.ok ((vectSolve engV1 stV () 2).1, [(vectSolve engV1 stV () 2).2])
    ∧ (vectSolve engV1 stV () 2).1.n_eff_guess = stV.n_eff_guess
    ∧ (vectSolve engV1 stV () 2).1.initial_mode_guess = none := by
  have hok : solve_sweep_wavelength (vectStepE (E := SolverError) engV1) stV
        () [2]
      = Except.ok ((vectSolve engV1 stV () 2).1,
          [(vectSolve engV1 stV () 2).2]) := by
    rw [solve_sweep_wavelength]
    simp only [vectStepE]
    rw [solve_sweep_wavelength]
  have h := (c5_vect_guess_reset engV1).2 stV () [2] _ _ hok
  exact ⟨hok, h.1, h.2 (by simp)⟩

/-- C6 counterexample: the result returned to the caller does not hold the
original complex fundamental field.  With the engine producing the single
mode `[I]`, the returned `modes` entry is the magnitude array `[1]`, because
`_solve` mutates `self._ms.modes[0]` in place after storing the aliased list
in the result dictionary — the caller never observes the original complex
field of the fundamental mode. -/
theorem c6_cex :
    (engI 2 () "0000" "Ex" 1 0 true none).modes = [[Complex.I]]
    ∧ (semiSolve engI "Ex" st0 () 2).2.modes = some [[(1 : ℂ)]]
    ∧ (1 : ℂ) ≠ Complex.I := by
  refine ⟨rfl, ?_, ?_⟩
  · simp [semiSolve, st0, init, engI, absHeadUpdate, absField, Complex.abs_I]
  · intro h
    have h2 := congrArg Complex.im h
    simp at h2

/-- C6 amended: in a semi-vectorial solve with mode profiles the returned
result's fundamental mode field is the elementwise magnitude of the engine's
complex field (mutated in place before the result is returned), the remaining
modes' fields are returned unmodified, and the returned list is the very list
stored in the solver state (the aliasing through which the mutation is
visible).  After the result is returned no model operation rewrites it. -/
theorem c6_semi_modes {S : Type} (engine : SemiEngine S) (svm : String)
    (st : SolverState S) (s : S) (w : ℝ) (raw : MSResult)
    (hmp : st.mode_profiles = true)
    (hraw : raw = engine w s st.boundary svm st.n_eigs st.tol st.mode_profiles
        st.initial_mode_guess)
    (hne : raw.modes ≠ []) :
    (semiSolve engine svm st s w).2.modes
      = some (absField (raw.modes.headD []) :: raw.modes.tail)
    ∧ (semiSolve engine svm st s w).1.modes
      = (semiSolve engine svm st s w).2.modes := by
  constructor
  · simp only [semiSolve]
    rw [← hraw]
    simp only [hmp, if_true]
    cases hm : raw.modes with
    | nil => exact absurd hm hne
    | cons m rest => simp [absHeadUpdate]
  · simp [semiSolve, hmp]

/-- C6 witness: the amended statement at the fixture engine whose single mode
field is `[I]`. -/
theorem c6_witness :
    (semiSolve engI "Ex" st0 () 2).2.modes
      = some (absField ((engI 2 () "0000" "Ex" 1 0 true none).modes.headD [])
          :: (engI 2 () "0000" "Ex" 1 0 true none).modes.tail)
    ∧ (semiSolve engI "Ex" st0 () 2).1.modes
      = (semiSolve engI "Ex" st0 () 2).2.modes := by
  exact c6_semi_modes engI "Ex" st0 () 2 (engI 2 () "0000" "Ex" 1 0 true none)
    rfl rfl (by simp [engI])

/-- The overlap vector written out: three E-fractions over the E-energy
total, then three H-fractions over the H-energy total. -/
theorem overlapVec_explicit (m : VMode) :
    overlapVec m
      = [fieldEnergy m.Ex
            / (fieldEnergy m.Ex + (fieldEnergy m.Ey + fieldEnergy m.Ez)) * 100,
         fieldEnergy m.Ey
            / (fieldEnergy m.Ex + (fieldEnergy m.Ey + fieldEnergy m.Ez)) * 100,
         fieldEnergy m.Ez
            / (fieldEnergy m.Ex + (fieldEnergy m.Ey + fieldEnergy m.Ez)) * 100,
         fieldEnergy m.Hx
            / (fieldEnergy m.Hx + (fieldEnergy m.Hy + fieldEnergy m.Hz)) * 100,
         fieldEnergy m.Hy
            / (fieldEnergy m.Hx + (fieldEnergy m.Hy + fieldEnergy m.Hz)) * 100,
         fieldEnergy m.Hz
            / (fieldEnergy m.Hx + (fieldEnergy m.Hy + fieldEnergy m.Hz)) * 100]
    := by
  simp [overlapVec]

/-- Normalising a three-element list by its sum and scaling to 100 gives
fractions summing to 100, provided the total is nonzero. -/
theorem sum_three_fractions (a b c : ℝ) (h : a + b + c ≠ 0) :
    a / (a + (b + c)) * 100 + (b / (a + (b + c)) * 100
      + c / (a + (b + c)) * 100) = 100 := by
  have h2 : a + (b + c) ≠ 0 := by rwa [← add_assoc]
  field_simp
  ring

/-- C7: for every mode of a fully-vectorial solve whose E-energy total and
H-energy total are nonzero, the computed overlap vector is among the solver's
stored overlaps, its first three entries sum to 100 and its last three
entries sum to 100. -/
theorem c7_overlap_sums {S : Type} (engine : VectEngine S)
    (st : SolverState S) (s : S) (w : ℝ) (m : VMode)
    (hm : m ∈ (engine w s st.boundary st.n_eigs st.tol st.n_eff_guess
        st.initial_mode_guess).modes)
    (hE : fieldEnergy m.Ex + fieldEnergy m.Ey + fieldEnergy m.Ez ≠ 0)
    (hH : fieldEnergy m.Hx + fieldEnergy m.Hy + fieldEnergy m.Hz ≠ 0) :
    overlapVec m ∈ ((vectSolve engine st s w).1.overlaps).getD []
    ∧ ((overlapVec m).take 3).sum = 100
    ∧ ((overlapVec m).drop 3).sum = 100 := by
  refine ⟨?_, ?_, ?_⟩
  · have hov : (vectSolve engine st s w).1.overlaps
        = some (get_overlaps (engine w s st.boundary st.n_eigs st.tol
            st.n_eff_guess st.initial_mode_guess).modes) := rfl
    rw [hov, Option.getD_some]
    exact List.mem_map_of_mem overlapVec hm
  · rw [overlapVec_explicit]
    norm_num
    exact sum_three_fractions _ _ _ hE
  · rw [overlapVec_explicit]
    norm_num
    exact sum_three_fractions _ _ _ hH

/-- C7 witness: the all-ones fixture mode returned by `engV1`. -/
theorem c7_witness :
    fieldEnergy mOnes.Ex + fieldEnergy mOnes.Ey + fieldEnergy mOnes.Ez ≠ 0
    ∧ overlapVec mOnes ∈ ((vectSolve engV1 stV () 2).1.overlaps).getD []
    ∧ ((overlapVec mOnes).take 3).sum = 100 := by
  have hne : fieldEnergy mOnes.Ex + fieldEnergy mOnes.Ey
      + fieldEnergy mOnes.Ez ≠ 0 := by
    norm_num [fieldEnergy, mOnes]
  have hneH : fieldEnergy mOnes.Hx + fieldEnergy mOnes.Hy
      + fieldEnergy mOnes.Hz ≠ 0 := by
    norm_num [fieldEnergy, mOnes]
  have h := c7_overlap_sums engV1 stV () 2 mOnes (by simp [engV1]) hne hneH
  exact ⟨hne, h.1, h.2.1⟩

/-- Mapping preserves indexed lookup. -/
theorem map_getElem? {A B : Type} (f : A → B) (l : List A) (k : ℕ) (x : A)
    (h : l[k]? = some x) : (l.map f)[k]? = some (f x) := by
  induction l generalizing k with
  | nil => simp at h
  | cons a l ih =>
    cases k with
    | zero =>
      simp only [List.getElem?_cons_zero, Option.some.injEq] at h
      simp [h]
    | succ n =>
      simp only [List.getElem?_cons_succ] at h
      simpa using ih n h

/-- `np.argmax` on a three-element list returns the index characterised by
being maximal and strictly greater than every earlier entry. -/
theorem argmax_three (a b c : ℝ) (i : ℕ) (hi : i < 3)
    (hmax : ∀ j, j < 3 → [a, b, c].getD j 0 ≤ [a, b, c].getD i 0)
    (hfirst : ∀ j, j < i → [a, b, c].getD j 0 < [a, b, c].getD i 0) :
    argmax [a, b, c] = i := by
  interval_cases i
  · have h1 : b ≤ a := by simpa using hmax 1 (by norm_num)
    have h2 : c ≤ a := by simpa using hmax 2 (by norm_num)
    simp [argmax, argmaxAux, not_lt.mpr h1, not_lt.mpr h2]
  · have h0 : a < b := by simpa using hfirst 0 (by norm_num)
    have h2 : c ≤ b := by simpa using hmax 2 (by norm_num)
    simp [argmax, argmaxAux, h0, not_lt.mpr h2]
  · have h0 : a < c := by simpa using hfirst 0 (by norm_num)
    have h1 : b < c := by simpa using hfirst 1 (by norm_num)
    by_cases hab : a < b
    · simp [argmax, argmaxAux, hab, h1]
    · simp [argmax, argmaxAux, hab, h0]

/-- C8: for every mode of a fully-vectorial solve, the stored mode type is
the label of the index of the largest of the first three overlap entries
(first index wins on ties), under the fixed mapping 0 to qTE, 1 to qTM and 2
to qTE/qTM, and the stored confidence is that winning fraction rounded to two
decimal places. -/
theorem c8_mode_type {S : Type} (engine : VectEngine S) (st : SolverState S)
    (s : S) (w : ℝ) (k : ℕ) (m : VMode) (o : List ℝ) (i : ℕ)
    (hm : (engine w s st.boundary st.n_eigs st.tol st.n_eff_guess
        st.initial_mode_guess).modes[k]? = some m)
    (ho : o = overlapVec m) (hi : i < 3)
    (hmax : ∀ j, j < 3 → o.getD j 0 ≤ o.getD i 0)
    (hfirst : ∀ j, j < i → o.getD j 0 < o.getD i 0) :
    ((vectSolve engine st s w).1.mode_types.getD [])[k]?
      = some (labels i, np_round2 (o.getD i 0)) := by
  have hmt : (vectSolve engine st s w).1.mode_types
      = some (get_mode_types (get_overlaps (engine w s st.boundary st.n_eigs
          st.tol st.n_eff_guess st.initial_mode_guess).modes)) := rfl
  rw [hmt, Option.getD_some]
  have h1 : (get_overlaps (engine w s st.boundary st.n_eigs st.tol
      st.n_eff_guess st.initial_mode_guess).modes)[k]?
      = some (overlapVec m) := map_getElem? overlapVec _ k m hm
  have h2 := map_getElem? (fun overlap =>
    (labels (argmax (overlap.take 3)),
     np_round2 (overlap.getD (argmax (overlap.take 3)) 0))) _ k _ h1
  rw [get_mode_types, h2]
  have htake : (overlapVec m).take 3
      = [(overlapVec m).getD 0 0, (overlapVec m).getD 1 0,
         (overlapVec m).getD 2 0] := by
    rw [overlapVec_explicit]
    norm_num
  have hargmax : argmax ((overlapVec m).take 3) = i := by
    rw [htake]
    refine argmax_three _ _ _ i hi ?_ ?_
    · intro j hj
      have h := hmax j hj
      rw [ho] at h
      interval_cases i <;> interval_cases j <;> simpa using h
    · intro j hj
      have h := hfirst j hj
      rw [ho] at h
      have hj3 : j < 3 := lt_trans hj hi
      interval_cases i <;> interval_cases j <;> simpa using h
  rw [ho]
  simp only [hargmax]

/-- C8 witness: the fixture mode `m8` has E-fractions 80, 20, 0, so its type
is the label of index 0 (`qTE`) with the rounded winning fraction. -/
theorem c8_witness :
    ((vectSolve engV8 stV () 2).1.mode_types.getD [])[0]?
      = some (labels 0, np_round2 ((overlapVec m8).getD 0 0))
    ∧ labels 0 = "qTE" := by
  constructor
  · refine c8_mode_type engV8 stV () 2 0 m8 (overlapVec m8) 0 rfl rfl
      (by norm_num) ?_ ?_
    · intro j hj
      have he : overlapVec m8 = [80, 20, 0, 100, 0, 0] := by
        rw [overlapVec_explicit]
        norm_num [fieldEnergy, m8, Complex.abs_two]
      rw [he]
      interval_cases j <;> norm_num
    · intro j hj
      exact absurd hj (Nat.not_lt_zero j)
  · rfl

/-- A field component that is identically zero has zero energy. -/
theorem fieldEnergy_eq_zero (f : List ℂ) (h : ∀ z ∈ f, z = 0) :
    fieldEnergy f = 0 := by
  induction f with
  | nil => simp [fieldEnergy]
  | cons z l ih =>
    have hz : z = 0 := h z (by simp)
    have hl := ih fun x hx => h x (by simp [hx])
    simp [fieldEnergy, hz] at hl ⊢
    simpa [fieldEnergy] using hl

/-- C10: the overlap normalisation divides by the bare triplet energy total
with no zero guard, so for a mode whose E components are identically zero the
divisor is zero and the E-fractions degenerate (they sum to 0, not 100): the
computation is well defined only when each triplet total is nonzero. -/
theorem c10_zero_energy (m : VMode)
    (hx : ∀ z ∈ m.Ex, z = 0) (hy : ∀ z ∈ m.Ey, z = 0)
    (hz : ∀ z ∈ m.Ez, z = 0) :
    [fieldEnergy m.Ex, fieldEnergy m.Ey, fieldEnergy m.Ez].sum = 0
    ∧ ((overlapVec m).take 3).sum = 0
    ∧ ((overlapVec m).take 3).sum ≠ 100 := by
  have h1 := fieldEnergy_eq_zero _ hx
  have h2 := fieldEnergy_eq_zero _ hy
  have h3 := fieldEnergy_eq_zero _ hz
  have hsum : ((overlapVec m).take 3).sum = 0 := by
    rw [overlapVec_explicit]
    norm_num [h1, h2, h3]
  refine ⟨by simp [h1, h2, h3], hsum, ?_⟩
  rw [hsum]
  norm_num

/-- C10 witness: the fixture mode with zero E components and nonzero H
components. -/
theorem c10_witness :
    [fieldEnergy mZero.Ex, fieldEnergy mZero.Ey, fieldEnergy mZero.Ez].sum = 0
    ∧ ((overlapVec mZero).take 3).sum ≠ 100 := by
  have h := c10_zero_energy mZero (by simp [mZero]) (by simp [mZero])
    (by simp [mZero])
  exact ⟨h.1, h.2.2⟩

end

end ModeSolverPy
